import Mathlib

/-
Verification of the goregen firmware (src/firmware/firmware.ino): a shallow
embedding of the command dispatcher, the voltage-sampling/averaging state, and
the pin-setting helpers, followed by theorems checking the specification's
claims against it.

Modelling conventions:
- Arduino `unsigned long` arithmetic is modelled over Nat with an explicit
  reduction mod 2^32 (`UL`) wherever the source performs 32-bit arithmetic.
- The analog sample source (`analogRead`) is an explicit parameter
  `src : Nat -> Nat -> Nat`, giving the raw sample of a channel at the t-th
  read of the current command.  `delay(1)` has no observable effect in the
  embedding and is dropped.
- `getAnalog` in the source is a switch with no default case: a channel
  outside 0..3 falls off the end of the function and yields an unspecified
  value.  That unspecified value is modelled by an extra parameter `ub`.
- The local `sum` of `getVoltage` is declared without an initializer in the
  source; its unspecified initial contents are modelled by the parameter
  `acc0` of `getVoltageAcc`.  `getVoltage` is the intended zero-start
  instance.
- Serial output is modelled as the list of bytes (as Nat) a command writes.
-/

set_option maxRecDepth 100000
set_option maxHeartbeats 1000000

namespace Goregen

/-- Modulus of Arduino 32-bit `unsigned long` arithmetic. -/
def UL : Nat := 4294967296

/-- Opcode READ_A0 (0x00): read raw channel 0. -/
def READ_A0 : Nat := 0x00
/-- Opcode READ_V (0x01): averaged voltage, channel 0. -/
def READ_V : Nat := 0x01
/-- Opcode LED_TOGGLE (0x12). -/
def LED_TOGGLE : Nat := 0x12
/-- Opcode LED_0 (0x10): led off. -/
def LED_0 : Nat := 0x10
/-- Opcode LED_1 (0x11): led on. -/
def LED_1 : Nat := 0x11
/-- Opcode PIN_DISCHARGE_0 (0x30). -/
def PIN_DISCHARGE_0 : Nat := 0x30
/-- Opcode PIN_DISCHARGE_1 (0x31). -/
def PIN_DISCHARGE_1 : Nat := 0x31
/-- Opcode PIN_CHARGE_0 (0x40). -/
def PIN_CHARGE_0 : Nat := 0x40
/-- Opcode PIN_CHARGE_1 (0x41). -/
def PIN_CHARGE_1 : Nat := 0x41
/-- Opcode MODE_IDLE (0x50). -/
def MODE_IDLE : Nat := 0x50
/-- Opcode MODE_CHARGE (0x51). -/
def MODE_CHARGE : Nat := 0x51
/-- Opcode MODE_DISCHARGE (0x52). -/
def MODE_DISCHARGE : Nat := 0x52
/-- Opcode READ_A1 (0x62). -/
def READ_A1 : Nat := 0x62
/-- Opcode READ_V1 (0x63). -/
def READ_V1 : Nat := 0x63
/-- Opcode READ_A2 (0x64). -/
def READ_A2 : Nat := 0x64
/-- Opcode READ_V2 (0x65). -/
def READ_V2 : Nat := 0x65
/-- Opcode READ_A3 (0x66). -/
def READ_A3 : Nat := 0x66
/-- Opcode READ_V3 (0x67). -/
def READ_V3 : Nat := 0x67
/-- Opcode PING (0xA0). -/
def PING : Nat := 0xA0
/-- Terminator byte STOP_BYTE (0xFF), sent after every recognized command. -/
def STOP_BYTE : Nat := 0xff

/-- CAN_REF: reference voltage of the ADC, in millivolts. -/
def CAN_REF : Nat := 2410
/-- CAN_BITSIZE: ADC full-scale count. -/
def CAN_BITSIZE : Nat := 1023
/-- NB_ANALOG_RD: number of raw reads per averaged-read command. -/
def NB_ANALOG_RD : Nat := 204
/-- VOLTAGE_HISTORY_NUM: ring-buffer capacity per channel. -/
def VOLTAGE_HISTORY_NUM : Nat := 10
/-- CHARGE_THRESHOLD (mV), also the sentinel seeded into the history. -/
def CHARGE_THRESHOLD : Nat := 1500

/-- The firmware's global mutable state: the 4x10 voltage history
`gVoltageHist` (as a total function, only indices below 4 and 10 are ever
used), the shared counter `gHistCounter`, and the physical levels of the
three output pins.  `pinCharge` holds the physically written level; the
logical charge state is its negation (see `setCharge`). -/
structure Firmware where
  hist : Nat → Nat → Nat
  counter : Nat
  pinCharge : Bool
  pinDischarge : Bool
  pinLed : Bool

/-- `setCharge(b)` performs `digitalWrite(PIN_CHARGE, !b)`: the charge line's
physical polarity is inverted relative to its logical meaning. -/
def setCharge (b : Bool) (s : Firmware) : Firmware := { s with pinCharge := !b }

/-- `setDischarge(b)` performs `digitalWrite(PIN_DISCHARGE, b)`. -/
def setDischarge (b : Bool) (s : Firmware) : Firmware := { s with pinDischarge := b }

/-- `setLed(b)` performs `digitalWrite(PIN_LED, b)`. -/
def setLed (b : Bool) (s : Firmware) : Firmware := { s with pinLed := b }

/-- `toggleLed()`: reads the led pin, writes its negation, and returns the
new state. -/
def toggleLed (s : Firmware) : Bool × Firmware :=
  let b := !s.pinLed
  (b, setLed b s)

/-- Logical state of the charge line (inverse of the physical pin level). -/
def chargeOn (s : Firmware) : Bool := !s.pinCharge

/-- Logical state of the discharge line (equal to the physical pin level). -/
def dischargeOn (s : Firmware) : Bool := s.pinDischarge

/-- `initVoltageHist()`: seed every history slot with CHARGE_THRESHOLD and
zero the counter. -/
def initVoltageHist (s : Firmware) : Firmware :=
  { s with hist := fun _ _ => CHARGE_THRESHOLD, counter := 0 }

/-- The state `setup()` leaves behind: charge off (physical level high, by
the polarity inversion), discharge off, led on, history seeded, counter 0.
The pre-`setup` power-on contents are irrelevant because `setup` writes
every modelled field; an all-zero record stands in for them. -/
def setupState : Firmware :=
  initVoltageHist (setLed true (setDischarge false (setCharge false
    { hist := fun _ _ => 0, counter := 0,
      pinCharge := false, pinDischarge := false, pinLed := false })))

/-- `getAnalog(pin)`: switch over the channel selecting the analog input.
The switch has no default case, so a channel outside 0..3 falls through
with an unspecified result, modelled by `ub`.  `src j t` is the raw sample
of channel `j` at the t-th read of the current command. -/
def getAnalog (ub : Nat) (src : Nat → Nat → Nat) (pin t : Nat) : Nat :=
  if pin = 0 then src 0 t
  else if pin = 1 then src 1 t
  else if pin = 2 then src 2 t
  else if pin = 3 then src 3 t
  else ub

/-- Sum of the first `n` history entries of channel `j`, accumulated in
`unsigned long` arithmetic, as in the loops of `computeAvgVoltage`. -/
def histSum (s : Firmware) (j n : Nat) : Nat :=
  (List.range n).foldl (fun a i => (a + s.hist j i) % UL) 0

/-- `computeAvgVoltage(j)`: if the counter is below the capacity, average
entries 0..counter inclusive (note the source's `i <= gHistCounter` bound)
over counter+1; otherwise average all 10 slots.  The source's `floor` is
the identity on the already-truncated integer quotient. -/
def computeAvgVoltage (j : Nat) (s : Firmware) : Nat :=
  if s.counter < VOLTAGE_HISTORY_NUM then
    histSum s j (s.counter + 1) / (s.counter + 1)
  else
    histSum s j VOLTAGE_HISTORY_NUM / VOLTAGE_HISTORY_NUM

/-- The sampling loop of `getVoltage`: NB_ANALOG_RD sequential reads of
channel `j` accumulated mod `UL`, starting from `acc0` (the source's `sum`
is declared without an initializer, so its start value is a parameter). -/
def sampleSum (acc0 ub : Nat) (src : Nat → Nat → Nat) (j : Nat) : Nat :=
  (List.range NB_ANALOG_RD).foldl (fun a i => (a + getAnalog ub src j i) % UL) acc0

/-- The per-read scaling pipeline of `getVoltage`: truncating mean of the
NB_ANALOG_RD samples, then `mean * CAN_REF / CAN_BITSIZE` in `unsigned
long` arithmetic. -/
def scaledSample (acc0 ub : Nat) (src : Nat → Nat → Nat) (j : Nat) : Nat :=
  sampleSum acc0 ub src j / NB_ANALOG_RD * CAN_REF % UL / CAN_BITSIZE

/-- Store `v` into slot `i` of channel `j`'s history row. -/
def writeHist (j i v : Nat) (s : Firmware) : Firmware :=
  { s with hist := fun a b => if a = j ∧ b = i then v else s.hist a b }

/-- `gHistCounter++` in `unsigned long` arithmetic. -/
def bumpCounter (s : Firmware) : Firmware :=
  { s with counter := (s.counter + 1) % UL }

/-- `getVoltage(j)` with explicit initial accumulator `acc0`: compute the
scaled sample, store it at `gHistCounter % VOLTAGE_HISTORY_NUM` in channel
`j`'s row, increment the counter, and return `computeAvgVoltage(j)` on the
updated state. -/
def getVoltageAcc (acc0 ub : Nat) (src : Nat → Nat → Nat) (j : Nat) (s : Firmware) :
    Firmware × Nat :=
  (bumpCounter (writeHist j (s.counter % VOLTAGE_HISTORY_NUM)
      (scaledSample acc0 ub src j) s),
   computeAvgVoltage j (bumpCounter (writeHist j (s.counter % VOLTAGE_HISTORY_NUM)
      (scaledSample acc0 ub src j) s)))

/-- `getVoltage(j)` with the intended zero-initialised accumulator. -/
def getVoltage (ub : Nat) (src : Nat → Nat → Nat) (j : Nat) (s : Firmware) :
    Firmware × Nat :=
  getVoltageAcc 0 ub src j s

/-- `sendBool`: one raw byte, 0 or 1. -/
def boolByte (b : Bool) : Nat := if b then 1 else 0

/-- `sendUint`: `Serial.print` of an unsigned integer, i.e. the ASCII bytes
of its decimal representation. -/
def uintBytes (v : Nat) : List Nat :=
  (Nat.toDigits 10 v).map Char.toNat

/-- One iteration of `loop()` once an opcode byte `op` has been read:
returns the successor state and the list of bytes written.  Matched
opcodes end with STOP_BYTE; the default case returns without writing. -/
def dispatch (ub : Nat) (src : Nat → Nat → Nat) (op : Nat) (s : Firmware) :
    Firmware × List Nat :=
  if op = READ_A0 then (s, uintBytes (getAnalog ub src 0 0) ++ [STOP_BYTE])
  else if op = READ_V then
    let r := getVoltage ub src 0 s
    (r.1, uintBytes r.2 ++ [STOP_BYTE])
  else if op = READ_A1 then (s, uintBytes (getAnalog ub src 1 0) ++ [STOP_BYTE])
  else if op = READ_V1 then
    let r := getVoltage ub src 1 s
    (r.1, uintBytes r.2 ++ [STOP_BYTE])
  else if op = READ_A2 then (s, uintBytes (getAnalog ub src 2 0) ++ [STOP_BYTE])
  else if op = READ_V2 then
    let r := getVoltage ub src 2 s
    (r.1, uintBytes r.2 ++ [STOP_BYTE])
  else if op = READ_A3 then (s, uintBytes (getAnalog ub src 3 0) ++ [STOP_BYTE])
  else if op = READ_V3 then
    let r := getVoltage ub src 3 s
    (r.1, uintBytes r.2 ++ [STOP_BYTE])
  else if op = LED_0 then (setLed false s, [STOP_BYTE])
  else if op = LED_1 then (setLed true s, [STOP_BYTE])
  else if op = LED_TOGGLE then
    let r := toggleLed s
    (r.2, [boolByte r.1, STOP_BYTE])
  else if op = PIN_DISCHARGE_0 then (setDischarge false s, [STOP_BYTE])
  else if op = PIN_DISCHARGE_1 then (setDischarge true s, [STOP_BYTE])
  else if op = PIN_CHARGE_0 then (setCharge false s, [STOP_BYTE])
  else if op = PIN_CHARGE_1 then (setCharge true s, [STOP_BYTE])
  else if op = MODE_IDLE then (setCharge false (setDischarge false s), [STOP_BYTE])
  else if op = MODE_CHARGE then (setCharge true (setDischarge false s), [STOP_BYTE])
  else if op = MODE_DISCHARGE then (setDischarge true (setCharge false s), [STOP_BYTE])
  else if op = PING then (s, [STOP_BYTE])
  else (s, [])

/-- The opcodes the dispatcher recognizes. -/
def knownOpcodes : List Nat :=
  [0x00, 0x01, 0x62, 0x63, 0x64, 0x65, 0x66, 0x67,
   0x10, 0x11, 0x12, 0x30, 0x31, 0x40, 0x41, 0x50, 0x51, 0x52, 0xA0]

/-- The four averaged-read opcodes (READ_V, READ_V1, READ_V2, READ_V3). -/
def averagedOpcodes : List Nat := [0x01, 0x63, 0x65, 0x67]

/-- Run a sequence of averaged reads on channel `j`, each with its own
per-command sample source (zero-initialised accumulator). -/
def runVoltageReads (ub j : Nat) (gs : List (Nat → Nat → Nat)) (s : Firmware) :
    Firmware :=
  gs.foldl (fun st g => (getVoltage ub g j st).1) s

/-- Run a sequence of averaged reads, each given as (channel, source). -/
def runSeq (ub : Nat) (steps : List (Nat × (Nat → Nat → Nat))) (s : Firmware) :
    Firmware :=
  steps.foldl (fun st p => (getVoltage ub p.2 p.1 st).1) s

/-- A sample source that is the constant `R` on every channel and read. -/
def constSrc (R : Nat) : Nat → Nat → Nat := fun _ _ => R

/-- The all-zero sample source, used for concrete evaluations. -/
def zeroSrc : Nat → Nat → Nat := fun _ _ => 0

/-- Invariant of channel `j`'s row after the entries `vs` have been inserted
consecutively, starting from the freshly seeded history: the counter equals
the number of entries, slots below that hold the entries, the rest still
hold the sentinel, and every entry is bounded by the scaling pipeline's
maximum output. -/
def HistInv (j : Nat) (vs : List Nat) (s : Firmware) : Prop :=
  s.counter = vs.length ∧
  (∀ i, i < vs.length → s.hist j i = vs.getD i 0) ∧
  (∀ i, vs.length ≤ i → s.hist j i = CHARGE_THRESHOLD) ∧
  (∀ v ∈ vs, v ≤ 4198404)

theorem getVoltage_fst (ub : Nat) (src : Nat → Nat → Nat) (j : Nat) (s : Firmware) :
    (getVoltage ub src j s).1
      = bumpCounter (writeHist j (s.counter % VOLTAGE_HISTORY_NUM)
          (scaledSample 0 ub src j) s) := rfl

theorem getVoltage_snd (ub : Nat) (src : Nat → Nat → Nat) (j : Nat) (s : Firmware) :
    (getVoltage ub src j s).2 = computeAvgVoltage j (getVoltage ub src j s).1 := rfl

theorem bumpCounter_counter (s : Firmware) :
    (bumpCounter s).counter = (s.counter + 1) % UL := rfl

theorem bumpCounter_hist (s : Firmware) : (bumpCounter s).hist = s.hist := rfl

theorem writeHist_counter (j i v : Nat) (s : Firmware) :
    (writeHist j i v s).counter = s.counter := rfl

theorem writeHist_hist (j i v : Nat) (s : Firmware) (a b : Nat) :
    (writeHist j i v s).hist a b = if a = j ∧ b = i then v else s.hist a b := rfl

theorem foldl_addmod (f : Nat → Nat) :
    ∀ (n : Nat) (a : Nat), a < UL →
      (List.range n).foldl (fun acc i => (acc + f i) % UL) a
        = (a + ((List.range n).map f).sum) % UL := by
  intro n
  induction n with
  | zero =>
    intro a ha
    simp [Nat.mod_eq_of_lt ha]
  | succ n ih =>
    intro a ha
    rw [List.range_succ, List.foldl_append, List.map_append, List.sum_append,
      ih a ha, List.foldl_cons, List.foldl_nil, Nat.mod_add_mod]
    simp [Nat.add_assoc]

theorem histSum_eq (s : Firmware) (j n : Nat) :
    histSum s j n = ((List.range n).map (s.hist j)).sum % UL := by
  unfold histSum
  rw [foldl_addmod (s.hist j) n 0 (by decide)]
  simp

theorem sampleSum_eq (acc0 ub : Nat) (src : Nat → Nat → Nat) (j : Nat)
    (h : acc0 < UL) :
    sampleSum acc0 ub src j
      = (acc0 + ((List.range NB_ANALOG_RD).map (getAnalog ub src j)).sum) % UL := by
  unfold sampleSum
  exact foldl_addmod (getAnalog ub src j) NB_ANALOG_RD acc0 h

theorem scaledSample_le (acc0 ub : Nat) (src : Nat → Nat → Nat) (j : Nat) :
    scaledSample acc0 ub src j ≤ 4198404 := by
  have h1 : sampleSum acc0 ub src j / NB_ANALOG_RD * CAN_REF % UL < UL :=
    Nat.mod_lt _ (by decide)
  have h2 : sampleSum acc0 ub src j / NB_ANALOG_RD * CAN_REF % UL / CAN_BITSIZE
      ≤ (UL - 1) / CAN_BITSIZE :=
    Nat.div_le_div_right (by omega)
  calc scaledSample acc0 ub src j
      ≤ (UL - 1) / CAN_BITSIZE := h2
    _ = 4198404 := by decide

theorem sum_range_getD (l : List Nat) :
    ((List.range l.length).map (fun i => l.getD i 0)).sum = l.sum := by
  induction l with
  | nil => rfl
  | cons x t ih =>
    have h1 : List.range (x :: t).length = 0 :: (List.range t.length).map Nat.succ := by
      rw [List.length_cons, List.range_succ_eq_map]
    have h2 : (List.range t.length).map ((fun i => (x :: t).getD i 0) ∘ Nat.succ)
        = (List.range t.length).map (fun i => t.getD i 0) := by
      apply List.map_congr_left
      intro i _
      rfl
    rw [h1, List.map_cons, List.map_map, List.sum_cons, h2, ih,
      List.getD_cons_zero, List.sum_cons]

theorem histInv_step (ub : Nat) (g : Nat → Nat → Nat) (j : Nat) (vs : List Nat)
    (s : Firmware) (hinv : HistInv j vs s) (hlen : vs.length < 10) :
    HistInv j (vs ++ [scaledSample 0 ub g j]) (getVoltage ub g j s).1 := by
  obtain ⟨hc, hlt, hge, hb⟩ := hinv
  have hidx : s.counter % VOLTAGE_HISTORY_NUM = vs.length := by
    rw [hc]
    exact Nat.mod_eq_of_lt (by unfold VOLTAGE_HISTORY_NUM; omega)
  rw [getVoltage_fst]
  refine ⟨?_, ?_, ?_, ?_⟩
  · rw [bumpCounter_counter, writeHist_counter, hc, List.length_append,
      List.length_cons, List.length_nil]
    exact Nat.mod_eq_of_lt (by unfold UL; omega)
  · intro i hi
    rw [List.length_append, List.length_cons, List.length_nil] at hi
    rw [bumpCounter_hist, writeHist_hist, hidx]
    rcases Nat.lt_or_ge i vs.length with h | h
    · rw [if_neg (by omega), hlt i h, List.getD_append _ _ _ _ h]
    · have hieq : i = vs.length := by omega
      subst hieq
      rw [if_pos ⟨rfl, rfl⟩, List.getD_append_right _ _ _ _ (Nat.le_refl _),
        Nat.sub_self, List.getD_cons_zero]
  · intro i hi
    rw [List.length_append, List.length_cons, List.length_nil] at hi
    rw [bumpCounter_hist, writeHist_hist, hidx, if_neg (by omega)]
    exact hge i (by omega)
  · intro v hv
    rcases List.mem_append.mp hv with h | h
    · exact hb v h
    · rw [List.mem_singleton.mp h]
      exact scaledSample_le 0 ub g j

theorem histInv_run (ub j : Nat) :
    ∀ (gs : List (Nat → Nat → Nat)) (vs : List Nat) (s : Firmware),
      HistInv j vs s → vs.length + gs.length ≤ 10 →
      HistInv j (vs ++ gs.map (fun g => scaledSample 0 ub g j))
        (runVoltageReads ub j gs s) := by
  intro gs
  induction gs with
  | nil =>
    intro vs s h _
    simpa [runVoltageReads] using h
  | cons g t ih =>
    intro vs s h hlen
    rw [List.length_cons] at hlen
    have h1 := histInv_step ub g j vs s h (by omega)
    have h2 := ih (vs ++ [scaledSample 0 ub g j]) ((getVoltage ub g j s).1) h1
      (by rw [List.length_append, List.length_cons, List.length_nil]; omega)
    have h3 : runVoltageReads ub j (g :: t) s
        = runVoltageReads ub j t ((getVoltage ub g j s).1) := by
      simp [runVoltageReads]
    rw [h3, List.map_cons]
    simpa [List.append_assoc] using h2

theorem warmup_read_value (ub : Nat) (g : Nat → Nat → Nat) (j : Nat) (vs : List Nat)
    (s : Firmware) (hinv : HistInv j vs s) (hlen : vs.length ≤ 8) :
    (getVoltage ub g j s).2
      = (vs.sum + scaledSample 0 ub g j + CHARGE_THRESHOLD) / (vs.length + 2) := by
  obtain ⟨hc2, hlt2, hge2, hb2⟩ := histInv_step ub g j vs s hinv (by omega)
  have hlen2 : (vs ++ [scaledSample 0 ub g j]).length = vs.length + 1 := by
    rw [List.length_append, List.length_cons, List.length_nil]
  rw [hlen2] at hc2 hge2
  rw [getVoltage_snd]
  unfold computeAvgVoltage
  rw [hc2, if_pos (by unfold VOLTAGE_HISTORY_NUM; omega)]
  have hmap : (List.range (vs.length + 1 + 1)).map ((getVoltage ub g j s).1.hist j)
      = ((List.range (vs ++ [scaledSample 0 ub g j]).length).map
          (fun i => (vs ++ [scaledSample 0 ub g j]).getD i 0)) ++ [CHARGE_THRESHOLD] := by
    rw [List.range_succ, List.map_append, hlen2]
    congr 1
    · apply List.map_congr_left
      intro i hi
      exact hlt2 i (by rw [hlen2]; exact List.mem_range.mp hi)
    · rw [List.map_cons, List.map_nil, hge2 (vs.length + 1) (Nat.le_refl _)]
  have hsum : ((List.range (vs.length + 1 + 1)).map ((getVoltage ub g j s).1.hist j)).sum
      = vs.sum + scaledSample 0 ub g j + CHARGE_THRESHOLD := by
    rw [hmap, List.sum_append, sum_range_getD, List.sum_append, List.sum_cons,
      List.sum_cons, List.sum_nil]
    omega
  have hvsum : vs.sum ≤ 8 * 4198404 := by
    have h8 := List.sum_le_card_nsmul vs 4198404
      (fun x hx => hb2 x (List.mem_append.mpr (Or.inl hx)))
    rw [smul_eq_mul] at h8
    have h9 : vs.length * 4198404 ≤ 8 * 4198404 :=
      Nat.mul_le_mul_right _ hlen
    omega
  have hvle : scaledSample 0 ub g j ≤ 4198404 := scaledSample_le 0 ub g j
  rw [histSum_eq, hsum,
    Nat.mod_eq_of_lt (by unfold CHARGE_THRESHOLD; unfold UL; omega)]

theorem getAnalog_eq (ub : Nat) (src : Nat → Nat → Nat) (j t : Nat) (hj : j < 4) :
    getAnalog ub src j t = src j t := by
  rcases j with _ | _ | _ | _ | j
  · rfl
  · rfl
  · rfl
  · rfl
  · omega

theorem getVoltage_ub_eq (ub ub2 : Nat) (src : Nat → Nat → Nat) (j : Nat)
    (s : Firmware) (hj : j < 4) :
    getVoltage ub src j s = getVoltage ub2 src j s := by
  have hss : sampleSum 0 ub src j = sampleSum 0 ub2 src j := by
    unfold sampleSum
    congr 1
    funext a i
    rw [getAnalog_eq ub src j i hj, getAnalog_eq ub2 src j i hj]
  have hsc : scaledSample 0 ub src j = scaledSample 0 ub2 src j := by
    unfold scaledSample
    rw [hss]
  unfold getVoltage getVoltageAcc
  rw [hsc]

theorem runVoltageReads_append (ub j : Nat) (l1 l2 : List (Nat → Nat → Nat))
    (s : Firmware) :
    runVoltageReads ub j (l1 ++ l2) s
      = runVoltageReads ub j l2 (runVoltageReads ub j l1 s) := by
  simp [runVoltageReads]

theorem const_read_result (ub : Nat) (g : Nat → Nat → Nat) (j : Nat) (s : Firmware)
    (hs : ∀ i, i < 10 → i ≠ s.counter % 10 → s.hist j i = scaledSample 0 ub g j) :
    (getVoltage ub g j s).2 = scaledSample 0 ub g j ∧
      ∀ i, i < 10 → (getVoltage ub g j s).1.hist j i = scaledSample 0 ub g j := by
  have hfull : ∀ i, i < 10 → (getVoltage ub g j s).1.hist j i = scaledSample 0 ub g j := by
    intro i hi
    rw [getVoltage_fst, bumpCounter_hist, writeHist_hist]
    by_cases hcase : i = s.counter % 10
    · rw [if_pos ⟨rfl, by unfold VOLTAGE_HISTORY_NUM; exact hcase⟩]
    · rw [if_neg (by unfold VOLTAGE_HISTORY_NUM; exact fun hp => hcase hp.2),
        hs i hi hcase]
  refine ⟨?_, hfull⟩
  have hVle : scaledSample 0 ub g j ≤ 4198404 := scaledSample_le 0 ub g j
  rw [getVoltage_snd]
  unfold computeAvgVoltage
  by_cases hco : (getVoltage ub g j s).1.counter < VOLTAGE_HISTORY_NUM
  · rw [if_pos hco]
    unfold VOLTAGE_HISTORY_NUM at hco
    have hmap : (List.range ((getVoltage ub g j s).1.counter + 1)).map
        ((getVoltage ub g j s).1.hist j)
        = List.replicate ((getVoltage ub g j s).1.counter + 1) (scaledSample 0 ub g j) := by
      apply List.eq_replicate_iff.mpr
      refine ⟨by simp, ?_⟩
      intro b hb
      obtain ⟨i, hi, rfl⟩ := List.mem_map.mp hb
      exact hfull i (by have := List.mem_range.mp hi; omega)
    rw [histSum_eq, hmap, List.sum_replicate, smul_eq_mul,
      Nat.mod_eq_of_lt (by
        have h1 : ((getVoltage ub g j s).1.counter + 1) * scaledSample 0 ub g j
            ≤ 10 * 4198404 :=
          Nat.mul_le_mul (by omega) hVle
        unfold UL
        omega)]
    exact Nat.mul_div_cancel_left _ (Nat.succ_pos _)
  · rw [if_neg hco]
    have hmap : (List.range VOLTAGE_HISTORY_NUM).map ((getVoltage ub g j s).1.hist j)
        = List.replicate VOLTAGE_HISTORY_NUM (scaledSample 0 ub g j) := by
      apply List.eq_replicate_iff.mpr
      refine ⟨by simp, ?_⟩
      intro b hb
      obtain ⟨i, hi, rfl⟩ := List.mem_map.mp hb
      refine hfull i ?_
      have := List.mem_range.mp hi
      unfold VOLTAGE_HISTORY_NUM at this
      omega
    rw [histSum_eq, hmap, List.sum_replicate, smul_eq_mul,
      Nat.mod_eq_of_lt (by
        have h1 : VOLTAGE_HISTORY_NUM * scaledSample 0 ub g j ≤ 10 * 4198404 :=
          Nat.mul_le_mul (by unfold VOLTAGE_HISTORY_NUM; omega) hVle
        unfold UL
        omega)]
    exact Nat.mul_div_cancel_left _ (by unfold VOLTAGE_HISTORY_NUM; omega)

theorem setup_histInv_nil (j : Nat) : HistInv j [] setupState := by
  refine ⟨rfl, ?_, ?_, ?_⟩
  · intro i hi
    simp at hi
  · intro i _
    rfl
  · intro v hv
    simp at hv

theorem fullInv_after (ub R j : Nat) :
    ∀ m i, i < 10 →
      i ≠ (runVoltageReads ub j (List.replicate (9 + m) (constSrc R)) setupState).counter % 10 →
      (runVoltageReads ub j (List.replicate (9 + m) (constSrc R)) setupState).hist j i
        = scaledSample 0 ub (constSrc R) j := by
  intro m
  induction m with
  | zero =>
    have h9 := histInv_run ub j (List.replicate 9 (constSrc R)) [] setupState
      (setup_histInv_nil j) (by simp)
    rw [List.nil_append, List.map_replicate] at h9
    obtain ⟨hc, hlt, hge, -⟩ := h9
    rw [List.length_replicate] at hc hlt
    intro i hi hne
    rw [hc] at hne
    have hi9 : i < 9 := by omega
    rw [hlt i hi9, List.getD_eq_getElem _ _ (by rw [List.length_replicate]; omega),
      List.getElem_replicate]
  | succ m ih =>
    intro i hi _
    have hrep : List.replicate (9 + (m + 1)) (constSrc R)
        = List.replicate (9 + m) (constSrc R) ++ [constSrc R] :=
      List.replicate_succ' (9 + m) (constSrc R)
    rw [hrep, runVoltageReads_append]
    have hone : runVoltageReads ub j [constSrc R]
        (runVoltageReads ub j (List.replicate (9 + m) (constSrc R)) setupState)
        = (getVoltage ub (constSrc R) j
            (runVoltageReads ub j (List.replicate (9 + m) (constSrc R)) setupState)).1 := by
      simp [runVoltageReads]
    rw [hone]
    exact (const_read_result ub (constSrc R) j _ ih).2 i hi

/-- C1: the dispatcher's response to the non-read, non-toggle opcodes (LED_0,
LED_1, PIN_DISCHARGE_0/1, PIN_CHARGE_0/1, MODE_IDLE, MODE_CHARGE,
MODE_DISCHARGE, PING) is the terminator byte 0xFF alone: no 0-valued payload
byte precedes it, contrary to the claim and to the firmware's own header
comment.  Evaluated at the post-setup state with an all-zero sample source. -/
theorem nonread_response_bytes :
    (dispatch 0 zeroSrc LED_0 setupState).2 = [STOP_BYTE] ∧
    (dispatch 0 zeroSrc LED_1 setupState).2 = [STOP_BYTE] ∧
    (dispatch 0 zeroSrc PIN_DISCHARGE_0 setupState).2 = [STOP_BYTE] ∧
    (dispatch 0 zeroSrc PIN_DISCHARGE_1 setupState).2 = [STOP_BYTE] ∧
    (dispatch 0 zeroSrc PIN_CHARGE_0 setupState).2 = [STOP_BYTE] ∧
    (dispatch 0 zeroSrc PIN_CHARGE_1 setupState).2 = [STOP_BYTE] ∧
    (dispatch 0 zeroSrc MODE_IDLE setupState).2 = [STOP_BYTE] ∧
    (dispatch 0 zeroSrc MODE_CHARGE setupState).2 = [STOP_BYTE] ∧
    (dispatch 0 zeroSrc MODE_DISCHARGE setupState).2 = [STOP_BYTE] ∧
    (dispatch 0 zeroSrc PING setupState).2 = [STOP_BYTE] ∧
    (dispatch 0 zeroSrc LED_0 setupState).2 ≠ [0, STOP_BYTE] := by
  decide

/-- C2 counterexample: on a freshly initialized system, the very first
averaged read (channel 0, all raw samples 0, so its own scaled sample is 0)
returns 750 = (0 + 1500) / 2, not its own scaled sample: the sentinel-seeded
slot 1 contributes because `computeAvgVoltage` runs after the counter
increment and its loop bound is inclusive. -/
theorem warmup_first_read_counterexample :
    (getVoltage 0 zeroSrc 0 setupState).2 = 750 ∧
      scaledSample 0 0 zeroSrc 0 = 0 ∧
      (getVoltage 0 zeroSrc 0 setupState).2 ≠ scaledSample 0 0 zeroSrc 0 := by
  decide

/-- C2 (amended): during warm-up, when k = gs.length ≤ 8 averaged samples
were taken before the current insertion, the returned average is the
truncating mean of the k+1 inserted scaled samples TOGETHER WITH one
still-sentinel slot holding CHARGE_THRESHOLD, i.e. over k+2 values; in
particular the very first averaged read returns
(own scaled sample + 1500) / 2. -/
theorem warmup_average (ub j : Nat) (gs : List (Nat → Nat → Nat))
    (g : Nat → Nat → Nat) (hk : gs.length ≤ 8) :
    (getVoltage ub g j (runVoltageReads ub j gs setupState)).2
      = ((gs.map (fun g2 => scaledSample 0 ub g2 j)).sum
          + scaledSample 0 ub g j + CHARGE_THRESHOLD) / (gs.length + 2) := by
  have hrun := histInv_run ub j gs [] setupState (setup_histInv_nil j)
    (by rw [List.length_nil]; omega)
  rw [List.nil_append] at hrun
  have h1 := warmup_read_value ub g j _ _ hrun (by rw [List.length_map]; omega)
  rw [List.length_map] at h1
  exact h1

/-- C2 witness: with no prior reads and an all-zero source the amended
formula gives (0 + 0 + 1500) / 2 = 750. -/
theorem warmup_average_witness :
    ([] : List (Nat → Nat → Nat)).length ≤ 8 ∧
      (getVoltage 0 zeroSrc 0 (runVoltageReads 0 0 [] setupState)).2 = 750 := by
  refine ⟨by decide, ?_⟩
  have h := warmup_average 0 0 [] zeroSrc (by decide)
  rw [h]
  decide

/-- C3: the claim describes the intended pipeline with an accumulator
starting at zero, but the source's `sum` is an uninitialized local: the
result depends on the unspecified initial value.  With every raw sample 0
on channel 0 from the fresh state, an initial residue of 204 yields 751
while the zero-start pipeline the claim describes yields 750. -/
theorem accumulator_dependence :
    (getVoltageAcc 204 0 zeroSrc 0 setupState).2 = 751 ∧
      (getVoltageAcc 0 0 zeroSrc 0 setupState).2 = 750 ∧
      (getVoltageAcc 204 0 zeroSrc 0 setupState).2
        ≠ (getVoltageAcc 0 0 zeroSrc 0 setupState).2 := by
  decide

/-- C4: there is a single counter shared by all channels: an averaged read
on any channel `j` increments it (mod 2^32); the read writes channel `j`'s
row at the shared index counter % 10; no other slot of any row changes; the
write position any subsequent read will use differs from the one just used;
and when the shared counter crosses 9 -> 10 the warm-up test (counter < 10,
the branch condition of `computeAvgVoltage` for every channel) flips. -/
theorem shared_counter (ub : Nat) (g : Nat → Nat → Nat) (j : Nat) (s : Firmware)
    (_hc : s.counter < UL) :
    (getVoltage ub g j s).1.counter = (s.counter + 1) % UL ∧
    (getVoltage ub g j s).1.hist j (s.counter % VOLTAGE_HISTORY_NUM)
      = scaledSample 0 ub g j ∧
    (∀ a i, ¬(a = j ∧ i = s.counter % VOLTAGE_HISTORY_NUM) →
      (getVoltage ub g j s).1.hist a i = s.hist a i) ∧
    (getVoltage ub g j s).1.counter % VOLTAGE_HISTORY_NUM
      ≠ s.counter % VOLTAGE_HISTORY_NUM ∧
    (s.counter = 9 → s.counter < VOLTAGE_HISTORY_NUM ∧
      ¬((getVoltage ub g j s).1.counter < VOLTAGE_HISTORY_NUM)) := by
  refine ⟨rfl, ?_, ?_, ?_, ?_⟩
  · rw [getVoltage_fst, bumpCounter_hist, writeHist_hist, if_pos ⟨rfl, rfl⟩]
  · intro a i h
    rw [getVoltage_fst, bumpCounter_hist, writeHist_hist, if_neg h]
  · rw [getVoltage_fst, bumpCounter_counter, writeHist_counter]
    unfold UL
    unfold VOLTAGE_HISTORY_NUM
    omega
  · intro h9
    rw [getVoltage_fst, bumpCounter_counter, writeHist_counter, h9]
    unfold VOLTAGE_HISTORY_NUM
    exact ⟨by omega, by decide⟩

/-- C4 witness: a read on channel 0 from the post-setup state bumps the
shared counter from 0 to 1. -/
theorem shared_counter_witness :
    setupState.counter < UL ∧
      (getVoltage 0 zeroSrc 0 setupState).1.counter = (setupState.counter + 1) % UL := by
  exact ⟨by decide, (shared_counter 0 zeroSrc 0 setupState (by decide)).1⟩

/-- C5: a byte matching no opcode of the table produces no state change and
no output bytes at all, not even the terminator. -/
theorem unknown_opcode_silent (ub : Nat) (src : Nat → Nat → Nat) (op : Nat)
    (s : Firmware) (h : op ∉ knownOpcodes) :
    dispatch ub src op s = (s, []) := by
  have n1 : ¬op = READ_A0 := fun e => h (by rw [e]; decide)
  have n2 : ¬op = READ_V := fun e => h (by rw [e]; decide)
  have n3 : ¬op = READ_A1 := fun e => h (by rw [e]; decide)
  have n4 : ¬op = READ_V1 := fun e => h (by rw [e]; decide)
  have n5 : ¬op = READ_A2 := fun e => h (by rw [e]; decide)
  have n6 : ¬op = READ_V2 := fun e => h (by rw [e]; decide)
  have n7 : ¬op = READ_A3 := fun e => h (by rw [e]; decide)
  have n8 : ¬op = READ_V3 := fun e => h (by rw [e]; decide)
  have n9 : ¬op = LED_0 := fun e => h (by rw [e]; decide)
  have n10 : ¬op = LED_1 := fun e => h (by rw [e]; decide)
  have n11 : ¬op = LED_TOGGLE := fun e => h (by rw [e]; decide)
  have n12 : ¬op = PIN_DISCHARGE_0 := fun e => h (by rw [e]; decide)
  have n13 : ¬op = PIN_DISCHARGE_1 := fun e => h (by rw [e]; decide)
  have n14 : ¬op = PIN_CHARGE_0 := fun e => h (by rw [e]; decide)
  have n15 : ¬op = PIN_CHARGE_1 := fun e => h (by rw [e]; decide)
  have n16 : ¬op = MODE_IDLE := fun e => h (by rw [e]; decide)
  have n17 : ¬op = MODE_CHARGE := fun e => h (by rw [e]; decide)
  have n18 : ¬op = MODE_DISCHARGE := fun e => h (by rw [e]; decide)
  have n19 : ¬op = PING := fun e => h (by rw [e]; decide)
  unfold dispatch
  rw [if_neg n1, if_neg n2, if_neg n3, if_neg n4, if_neg n5, if_neg n6,
    if_neg n7, if_neg n8, if_neg n9, if_neg n10, if_neg n11, if_neg n12,
    if_neg n13, if_neg n14, if_neg n15, if_neg n16, if_neg n17, if_neg n18,
    if_neg n19]

/-- C5 witness: byte 0x99 is not in the table; sending it from the
post-setup state changes nothing and writes nothing. -/
theorem unknown_opcode_silent_witness :
    (0x99 : Nat) ∉ knownOpcodes ∧
      dispatch 0 zeroSrc 0x99 setupState = (setupState, []) :=
  ⟨by decide, unknown_opcode_silent 0 zeroSrc 0x99 setupState (by decide)⟩

/-- C6: from every prior pin state, MODE_CHARGE leaves the discharge line
logically off and the charge line logically on, MODE_DISCHARGE the reverse,
MODE_IDLE both off; each mode action writes the line being turned off
first, and the intermediate state after that first write never has both
lines asserted (nor does the final state). -/
theorem mode_mutual_exclusion (ub : Nat) (src : Nat → Nat → Nat) (s : Firmware) :
    (dispatch ub src MODE_CHARGE s
        = (setCharge true (setDischarge false s), [STOP_BYTE]) ∧
      chargeOn (setCharge true (setDischarge false s)) = true ∧
      dischargeOn (setCharge true (setDischarge false s)) = false ∧
      ¬(chargeOn (setDischarge false s) = true ∧
        dischargeOn (setDischarge false s) = true) ∧
      ¬(chargeOn (setCharge true (setDischarge false s)) = true ∧
        dischargeOn (setCharge true (setDischarge false s)) = true)) ∧
    (dispatch ub src MODE_DISCHARGE s
        = (setDischarge true (setCharge false s), [STOP_BYTE]) ∧
      dischargeOn (setDischarge true (setCharge false s)) = true ∧
      chargeOn (setDischarge true (setCharge false s)) = false ∧
      ¬(chargeOn (setCharge false s) = true ∧
        dischargeOn (setCharge false s) = true) ∧
      ¬(chargeOn (setDischarge true (setCharge false s)) = true ∧
        dischargeOn (setDischarge true (setCharge false s)) = true)) ∧
    (dispatch ub src MODE_IDLE s
        = (setCharge false (setDischarge false s), [STOP_BYTE]) ∧
      chargeOn (setCharge false (setDischarge false s)) = false ∧
      dischargeOn (setCharge false (setDischarge false s)) = false ∧
      ¬(chargeOn (setDischarge false s) = true ∧
        dischargeOn (setDischarge false s) = true) ∧
      ¬(chargeOn (setCharge false (setDischarge false s)) = true ∧
        dischargeOn (setCharge false (setDischarge false s)) = true)) := by
  refine ⟨⟨rfl, rfl, rfl, ?_, ?_⟩, ⟨rfl, rfl, rfl, ?_, ?_⟩, ⟨rfl, rfl, rfl, ?_, ?_⟩⟩ <;>
    simp [chargeOn, dischargeOn, setCharge, setDischarge]

/-- C7: LED_TOGGLE is an involution: two toggles restore the full state and
the two returned bytes are complementary; concretely from the startup
default (indicator on), the first 0x12 yields [0x00, 0xFF] and the second
yields [0x01, 0xFF]. -/
theorem led_toggle_involution (ub : Nat) (src : Nat → Nat → Nat) :
    (∀ s : Firmware, (toggleLed (toggleLed s).2).2 = s ∧
      (toggleLed (toggleLed s).2).1 = !(toggleLed s).1) ∧
    dispatch ub src LED_TOGGLE setupState
      = (setLed false setupState, [0, STOP_BYTE]) ∧
    dispatch ub src LED_TOGGLE (setLed false setupState)
      = (setupState, [1, STOP_BYTE]) := by
  refine ⟨?_, rfl, rfl⟩
  intro s
  refine ⟨?_, rfl⟩
  cases s with
  | mk h c pc pd pl => simp [toggleLed, setLed]

/-- C8 counterexample: with the sample source constantly 0 (scaled value 0),
nine averaged reads on channel 0, one interleaved averaged read on channel 1,
and then the tenth averaged read on channel 0: channel 0 has now had at
least 10 averaged-read calls, yet that call reports 150, not the scaled
value 0 — the shared counter skipped channel 0's slot 9, which still holds
the 1500 sentinel. -/
theorem interleaved_reads_counterexample :
    (getVoltage 0 zeroSrc 0
        (runSeq 0 (List.replicate 9 ((0 : Nat), zeroSrc) ++ [((1 : Nat), zeroSrc)])
          setupState)).2 = 150 ∧
      scaledSample 0 0 zeroSrc 0 = 0 ∧
      (getVoltage 0 zeroSrc 0
        (runSeq 0 (List.replicate 9 ((0 : Nat), zeroSrc) ++ [((1 : Nat), zeroSrc)])
          setupState)).2 ≠ scaledSample 0 0 zeroSrc 0 := by
  decide

/-- C8 (amended): if every averaged read since startup is on channel `j`
with the source constantly R, then from the 10th such read onward the
reported average equals exactly the per-read pipeline's scaled value for R,
and stays there: the read performed after n ≥ 9 prior reads returns it. -/
theorem const_source_convergence (ub R j n : Nat) (hn : 9 ≤ n) :
    (getVoltage ub (constSrc R) j
        (runVoltageReads ub j (List.replicate n (constSrc R)) setupState)).2
      = scaledSample 0 ub (constSrc R) j := by
  obtain ⟨m, rfl⟩ := Nat.exists_eq_add_of_le hn
  exact (const_read_result ub (constSrc R) j _ (fullInv_after ub R j m)).1

/-- C8 witness: channel 0, source constantly 0, nine prior reads: the tenth
read reports the scaled value 0. -/
theorem const_source_convergence_witness :
    (9 : Nat) ≤ 9 ∧
      (getVoltage 0 (constSrc 0) 0
        (runVoltageReads 0 0 (List.replicate 9 (constSrc 0)) setupState)).2 = 0 := by
  refine ⟨by decide, ?_⟩
  have h := const_source_convergence 0 0 0 9 (by decide)
  rw [h]
  decide

/-- C9: for a channel in {0,1,2,3} the raw-sample helper returns exactly the
analog source's sample (the value `ub` standing for the switch fall-through
never appears), and the dispatcher's behaviour on every opcode and state is
independent of `ub` — every internal call it makes passes a channel in
{0,1,2,3}. -/
theorem channel_precondition (ub ub2 : Nat) (src : Nat → Nat → Nat)
    (j t op : Nat) (s : Firmware) (hj : j < 4) :
    getAnalog ub src j t = src j t ∧
      dispatch ub src op s = dispatch ub2 src op s := by
  constructor
  · exact getAnalog_eq ub src j t hj
  · unfold dispatch
    rw [getVoltage_ub_eq ub ub2 src 0 s (by omega),
      getVoltage_ub_eq ub ub2 src 1 s (by omega),
      getVoltage_ub_eq ub ub2 src 2 s (by omega),
      getVoltage_ub_eq ub ub2 src 3 s (by omega),
      getAnalog_eq ub src 0 0 (by omega), getAnalog_eq ub2 src 0 0 (by omega),
      getAnalog_eq ub src 1 0 (by omega), getAnalog_eq ub2 src 1 0 (by omega),
      getAnalog_eq ub src 2 0 (by omega), getAnalog_eq ub2 src 2 0 (by omega),
      getAnalog_eq ub src 3 0 (by omega), getAnalog_eq ub2 src 3 0 (by omega)]

/-- C9 witness: channel 0 and the PING opcode, with fall-through values 0
and 1. -/
theorem channel_precondition_witness :
    (0 : Nat) < 4 ∧
      (getAnalog 0 zeroSrc 0 0 = zeroSrc 0 0 ∧
        dispatch 0 zeroSrc PING setupState = dispatch 1 zeroSrc PING setupState) :=
  ⟨by decide, channel_precondition 0 1 zeroSrc 0 0 PING setupState (by decide)⟩

/-- C10: every opcode other than the four averaged-read opcodes — raw
reads, LED, pin, mode, ping, and unknown bytes alike — leaves the entire
voltage history and the shared sample counter exactly unchanged. -/
theorem voltage_state_frame (ub : Nat) (src : Nat → Nat → Nat) (op : Nat)
    (s : Firmware) (h : op ∉ averagedOpcodes) :
    (dispatch ub src op s).1.hist = s.hist ∧
      (dispatch ub src op s).1.counter = s.counter := by
  have nV : ¬op = READ_V := fun e => h (by rw [e]; decide)
  have nV1 : ¬op = READ_V1 := fun e => h (by rw [e]; decide)
  have nV2 : ¬op = READ_V2 := fun e => h (by rw [e]; decide)
  have nV3 : ¬op = READ_V3 := fun e => h (by rw [e]; decide)
  unfold dispatch
  by_cases e1 : op = READ_A0
  · rw [if_pos e1]; exact ⟨rfl, rfl⟩
  rw [if_neg e1, if_neg nV]
  by_cases e3 : op = READ_A1
  · rw [if_pos e3]; exact ⟨rfl, rfl⟩
  rw [if_neg e3, if_neg nV1]
  by_cases e5 : op = READ_A2
  · rw [if_pos e5]; exact ⟨rfl, rfl⟩
  rw [if_neg e5, if_neg nV2]
  by_cases e7 : op = READ_A3
  · rw [if_pos e7]; exact ⟨rfl, rfl⟩
  rw [if_neg e7, if_neg nV3]
  by_cases e9 : op = LED_0
  · rw [if_pos e9]; exact ⟨rfl, rfl⟩
  rw [if_neg e9]
  by_cases e10 : op = LED_1
  · rw [if_pos e10]; exact ⟨rfl, rfl⟩
  rw [if_neg e10]
  by_cases e11 : op = LED_TOGGLE
  · rw [if_pos e11]; exact ⟨rfl, rfl⟩
  rw [if_neg e11]
  by_cases e12 : op = PIN_DISCHARGE_0
  · rw [if_pos e12]; exact ⟨rfl, rfl⟩
  rw [if_neg e12]
  by_cases e13 : op = PIN_DISCHARGE_1
  · rw [if_pos e13]; exact ⟨rfl, rfl⟩
  rw [if_neg e13]
  by_cases e14 : op = PIN_CHARGE_0
  · rw [if_pos e14]; exact ⟨rfl, rfl⟩
  rw [if_neg e14]
  by_cases e15 : op = PIN_CHARGE_1
  · rw [if_pos e15]; exact ⟨rfl, rfl⟩
  rw [if_neg e15]
  by_cases e16 : op = MODE_IDLE
  · rw [if_pos e16]; exact ⟨rfl, rfl⟩
  rw [if_neg e16]
  by_cases e17 : op = MODE_CHARGE
  · rw [if_pos e17]; exact ⟨rfl, rfl⟩
  rw [if_neg e17]
  by_cases e18 : op = MODE_DISCHARGE
  · rw [if_pos e18]; exact ⟨rfl, rfl⟩
  rw [if_neg e18]
  by_cases e19 : op = PING
  · rw [if_pos e19]; exact ⟨rfl, rfl⟩
  rw [if_neg e19]
  exact ⟨rfl, rfl⟩

/-- C10 witness: the raw read READ_A0 is not an averaged read and preserves
history and counter. -/
theorem voltage_state_frame_witness :
    (0x00 : Nat) ∉ averagedOpcodes ∧
      ((dispatch 0 zeroSrc 0x00 setupState).1.hist = setupState.hist ∧
        (dispatch 0 zeroSrc 0x00 setupState).1.counter = setupState.counter) :=
  ⟨by decide, voltage_state_frame 0 zeroSrc 0x00 setupState (by decide)⟩

end Goregen
